import Mathlib

/-!
# Coyote toolchain: shallow embedding and verification of spec claims

This file embeds the parts of the Coyote toolchain (IR generator
`coyotec/src/generator.rs`, value model `cvm/src/valuetypes.rs`, table
`cvm/src/ctable.rs`, and virtual machine `cvm/src/vm.rs`) that the
spec claims C1..C10 are about, and settles each claim against the
embedding.

Modelling conventions:
* Rust `f64` values are modelled by `Coyote.Fl`: NaN, the two
  infinities, and finite values as exact rationals; arithmetic rounds
  with `Coyote.rnd` (round to nearest, ties to even, overflow to
  infinity).  The sign of zero is not tracked (a finite zero is `+0`);
  no claim below depends on it.
* Rust `usize`/`u8` arithmetic: overflow/underflow that would panic in
  the source is mapped to an `Except.error`, or noted in a comment when
  the executions proved about never reach it.
* Rust panics (`panic!`, slice index out of bounds, `unwrap` failure)
  are modelled as `Except.error`.
-/

namespace Coyote

/-! ## Model of IEEE-754 binary64 (`f64`)

The `cvm` value model (`valuetypes.rs`) funnels all numeric payloads
through `f64` (`Value.as_float`), so the embedding needs a model of
`f64` arithmetic.  A float is NaN, ±∞, or a finite value, the finite
value being carried exactly as a rational. -/

inductive Fl where
  | nan : Fl
  | inf : Fl
  | ninf : Fl
  | fin : ℚ → Fl
deriving DecidableEq

/-- Fuel-driven base-2 logarithm on `ℕ` (`natLog2 n` = ⌊log₂ n⌋ for
`1 ≤ n < 2^1100`; saturates at 1100 beyond that, far outside the
binary64 exponent range, where `rnd`'s overflow/underflow clamps make
the saturated value give the same rounding result). -/
def natLog2Aux : ℕ → ℕ → ℕ
  | 0, _ => 0
  | f + 1, n => if 2 ≤ n then natLog2Aux f (n / 2) + 1 else 0

def natLog2 (n : ℕ) : ℕ := natLog2Aux 1100 n

/-- Round a rational to the nearest integer, ties to even (the IEEE-754
default rounding of the significand). -/
def roundTiesEven (x : ℚ) : ℤ :=
  let f := ⌊x⌋
  let r := x - (f : ℚ)
  if r < 1/2 then f
  else if 1/2 < r then f + 1
  else if f % 2 = 0 then f else f + 1

/-- Is the rational exactly representable as a finite binary64 value?
A nonzero `q = num/2^k` (lowest terms) is representable iff either
`k > 0` (so `num` is odd) with `|num| < 2^53` and `k ≤ 1074`, or `k = 0`
(an integer) whose top-53-bit truncation is exact and whose magnitude
stays below the overflow threshold. -/
def isRepr (q : ℚ) : Bool :=
  q = 0 ||
    (let k := natLog2 q.den
     q.den = 2 ^ k &&
       (if k = 0 then
          (q.num.natAbs < 2 ^ 53 ||
            (q.num.natAbs < 2 ^ 1024 &&
              q.num.natAbs % 2 ^ (natLog2 q.num.natAbs - 52) = 0))
        else q.num.natAbs < 2 ^ 53 && k ≤ 1074))

/-- Round a real (rational) value to binary64, IEEE-754
round-to-nearest-ties-even.  Exactly representable values are returned
unchanged (that branch is what every theorem below exercises); other
values are scaled so the significand is an integer, rounded ties-even,
and overflow beyond the finite range becomes ±∞. -/
def rnd (q : ℚ) : Fl :=
  if isRepr q then .fin q
  else
    let e : ℤ := if 1 ≤ |q| then (natLog2 ⌊|q|⌋.toNat : ℤ) else
      -((natLog2 ⌈(|q|)⁻¹⌉.toNat : ℤ) + 1)
    let scale : ℤ := if e - 52 < -1074 then -1074 else e - 52
    let m : ℤ := roundTiesEven (q * (2 : ℚ) ^ (-scale))
    let r : ℚ := (m : ℚ) * (2 : ℚ) ^ scale
    if (2 : ℚ) ^ (1024 : ℤ) ≤ |r| then (if q < 0 then .ninf else .inf)
    else .fin r

/-- `f64` addition. -/
def flAdd : Fl → Fl → Fl
  | .nan, _ => .nan
  | _, .nan => .nan
  | .inf, .ninf => .nan
  | .ninf, .inf => .nan
  | .inf, _ => .inf
  | _, .inf => .inf
  | .ninf, _ => .ninf
  | _, .ninf => .ninf
  | .fin p, .fin q => rnd (p + q)

/-- `f64` subtraction. -/
def flSub : Fl → Fl → Fl
  | .nan, _ => .nan
  | _, .nan => .nan
  | .inf, .inf => .nan
  | .ninf, .ninf => .nan
  | .inf, _ => .inf
  | .ninf, _ => .ninf
  | _, .inf => .ninf
  | _, .ninf => .inf
  | .fin p, .fin q => rnd (p - q)

/-- Sign-aware infinity helper: `±∞` by the sign of a rational (zero
gives NaN, matching `±∞ * 0` and `±∞ / 0`-style IEEE rules where used). -/
def infBySign (pos : Bool) : Fl := if pos then .inf else .ninf

/-- `f64` multiplication. -/
def flMul : Fl → Fl → Fl
  | .nan, _ => .nan
  | _, .nan => .nan
  | .inf, .inf => .inf
  | .inf, .ninf => .ninf
  | .ninf, .inf => .ninf
  | .ninf, .ninf => .inf
  | .inf, .fin q => if q = 0 then .nan else infBySign (0 < q)
  | .ninf, .fin q => if q = 0 then .nan else infBySign (q < 0)
  | .fin p, .inf => if p = 0 then .nan else infBySign (0 < p)
  | .fin p, .ninf => if p = 0 then .nan else infBySign (p < 0)
  | .fin p, .fin q => rnd (p * q)

/-- `f64` division.  Finite / 0 follows IEEE with a positive zero:
`p/0 = +∞` for `p > 0`, `-∞` for `p < 0`, NaN for `0/0`. -/
def flDiv : Fl → Fl → Fl
  | .nan, _ => .nan
  | _, .nan => .nan
  | .inf, .inf => .nan
  | .inf, .ninf => .nan
  | .ninf, .inf => .nan
  | .ninf, .ninf => .nan
  | .inf, .fin q => infBySign (0 ≤ q)
  | .ninf, .fin q => infBySign (q < 0)
  | .fin _, .inf => .fin 0
  | .fin _, .ninf => .fin 0
  | .fin p, .fin q =>
      if q = 0 then (if p = 0 then .nan else if 0 < p then .inf else .ninf)
      else rnd (p / q)

/-- `f64` negation. -/
def flNeg : Fl → Fl
  | .nan => .nan
  | .inf => .ninf
  | .ninf => .inf
  | .fin p => .fin (-p)

/-- `f64` `<` (false whenever either side is NaN). -/
def flLt : Fl → Fl → Bool
  | .nan, _ => false
  | _, .nan => false
  | .ninf, .ninf => false
  | .ninf, _ => true
  | _, .ninf => false
  | .inf, _ => false
  | _, .inf => true
  | .fin p, .fin q => p < q

/-- `f64` `<=` (false whenever either side is NaN). -/
def flLe : Fl → Fl → Bool
  | .nan, _ => false
  | _, .nan => false
  | .ninf, _ => true
  | _, .ninf => false
  | _, .inf => true
  | .inf, _ => false
  | .fin p, .fin q => p ≤ q

/-- `f64` `>` (false whenever either side is NaN). -/
def flGt : Fl → Fl → Bool
  | .nan, _ => false
  | _, .nan => false
  | .ninf, _ => false
  | _, .ninf => true
  | .inf, .inf => false
  | .inf, _ => true
  | _, .inf => false
  | .fin p, .fin q => q < p

/-- `f64` `>=` (false whenever either side is NaN). -/
def flGe : Fl → Fl → Bool
  | .nan, _ => false
  | _, .nan => false
  | _, .ninf => true
  | .ninf, _ => false
  | .inf, _ => true
  | _, .inf => false
  | .fin p, .fin q => q ≤ p

/-- `f64` `==` (false whenever either side is NaN). -/
def flEq : Fl → Fl → Bool
  | .nan, _ => false
  | _, .nan => false
  | .inf, .inf => true
  | .ninf, .ninf => true
  | .fin p, .fin q => p = q
  | _, _ => false

/-- Truncate a rational toward zero (the integer part Rust's float→int
casts keep before clamping). -/
def ratTrunc (q : ℚ) : ℤ := if 0 ≤ q then ⌊q⌋ else -⌊-q⌋

/-- Rust `as i64` on an `f64`: truncate toward zero, saturate at the
`i64` range ends, NaN to 0. -/
def i64cast : Fl → ℤ
  | .nan => 0
  | .inf => 2 ^ 63 - 1
  | .ninf => -(2 ^ 63)
  | .fin q =>
      let t := ratTrunc q
      if t < -(2 ^ 63) then -(2 ^ 63)
      else if 2 ^ 63 - 1 < t then 2 ^ 63 - 1
      else t

/-- Rust `as usize` (64-bit) on an `f64`: truncate toward zero,
saturate into `[0, 2^64)`, NaN to 0. -/
def usizeCast : Fl → ℕ
  | .nan => 0
  | .inf => 2 ^ 64 - 1
  | .ninf => 0
  | .fin q =>
      let t := ratTrunc q
      if t < 0 then 0
      else if 2 ^ 64 - 1 < t then 2 ^ 64 - 1
      else t.toNat

end Coyote

namespace Coyote

/-! ## `cvm/src/valuetypes.rs` — runtime value model

`Object` is a struct of a `DataTag` and a `Value` union.  The union is
modelled as an inductive recording which field was last written; reads
through a mismatched field (a type-punned read, which the executions
proved about never perform) return a fixed junk value. -/

inductive DataTag where
  | Nil | Float | Bool | Pointer | Char | Integer | Byte | UInt
  | Text | ConstText | Array
deriving DecidableEq

/-- The `Value` union: `f : f64`, `b : bool`, `ptr : usize`,
`byte : u8` (the fields the shipped code writes).  `i`, `bytes`,
`uint`, `rptr` are never written by the embedded code paths. -/
inductive Value where
  | f : Fl → Value
  | b : Bool → Value
  | ptr : ℕ → Value
  | byte : ℕ → Value
deriving DecidableEq

namespace Value

/-- `Value::as_float`: read the `f` field. -/
def as_float : Value → Fl
  | .f x => x
  | _ => .nan  -- punned read; never reached in the developments below

/-- `Value::as_bool`: read the `b` field. -/
def as_bool : Value → Bool
  | .b x => x
  | _ => false  -- punned read; never reached

/-- `Value::as_ptr`: read the `ptr` field. -/
def as_ptr : Value → ℕ
  | .ptr x => x
  | _ => 0  -- punned read; never reached

/-- `Value::as_byte`: read the `byte` field. -/
def as_byte : Value → ℕ
  | .byte x => x
  | _ => 0  -- punned read; never reached

/-- `Value::as_integer`: `self.f as i64` — note the source reads the
float field and casts, it does not read an integer field. -/
def as_integer (v : Value) : ℤ := i64cast v.as_float

/-- `Value::as_uint`: `self.as_float() as usize`. -/
def as_uint (v : Value) : ℕ := usizeCast v.as_float

/-- `Value::as_text`: `self.as_uint()`. -/
def as_text (v : Value) : ℕ := v.as_uint

end Value

/-- `Object`: tag plus union payload. -/
structure Object where
  tag : DataTag
  data : Value
deriving DecidableEq

/-- An `Integer`-tagged object.  Integer payloads live in the union's
`f` field: all arithmetic in `valuetypes.rs` reads them with
`as_float` and stores results back as `Value { f: val }`. -/
def intObj (v : ℤ) : Object := ⟨.Integer, .f (.fin (v : ℚ))⟩

/-- A `Float`-tagged object. -/
def floatObj (x : Fl) : Object := ⟨.Float, .f x⟩

/-- A `Bool`-tagged object. -/
def boolObj (b : Bool) : Object := ⟨.Bool, .b b⟩

/-- `Object::Nil` (payload irrelevant; the VM never reads it). -/
def nilObj : Object := ⟨.Nil, .f (.fin 0)⟩

/-- Errors for code paths that `panic!` in the source. -/
abbrev VErr := String

/-- `impl Add for Object` (`valuetypes.rs:108-127`).  `(Nil, Nil)`
returns the right operand; Float/mixed pairs produce a Float; two
Integers produce an Integer; anything else panics. -/
def objAdd (a rhs : Object) : Except VErr Object :=
  match a.tag, rhs.tag with
  | .Nil, .Nil => .ok rhs
  | .Float, .Float | .Integer, .Float | .Float, .Integer =>
      .ok ⟨.Float, .f (flAdd a.data.as_float rhs.data.as_float)⟩
  | .Integer, .Integer =>
      .ok ⟨.Integer, .f (flAdd a.data.as_float rhs.data.as_float)⟩
  | _, _ => .error "cannot add types"

/-- `impl Sub for Object` (`valuetypes.rs:129-148`). -/
def objSub (a rhs : Object) : Except VErr Object :=
  match a.tag, rhs.tag with
  | .Nil, .Nil => .ok rhs
  | .Float, .Float | .Integer, .Float | .Float, .Integer =>
      .ok ⟨.Float, .f (flSub a.data.as_float rhs.data.as_float)⟩
  | .Integer, .Integer =>
      .ok ⟨.Integer, .f (flSub a.data.as_float rhs.data.as_float)⟩
  | _, _ => .error "cannot sub types"

/-- `impl Mul for Object` (`valuetypes.rs:150-169`). -/
def objMul (a rhs : Object) : Except VErr Object :=
  match a.tag, rhs.tag with
  | .Nil, .Nil => .ok rhs
  | .Float, .Float | .Integer, .Float | .Float, .Integer =>
      .ok ⟨.Float, .f (flMul a.data.as_float rhs.data.as_float)⟩
  | .Integer, .Integer =>
      .ok ⟨.Integer, .f (flMul a.data.as_float rhs.data.as_float)⟩
  | _, _ => .error "cannot mul types"

/-- `impl Div for Object` (`valuetypes.rs:171-190`).  Note: the
Integer/Integer arm divides the floats `as_float` and tags the result
`Integer`; there is no zero-divisor check anywhere in the arm. -/
def objDiv (a rhs : Object) : Except VErr Object :=
  match a.tag, rhs.tag with
  | .Nil, .Nil => .ok rhs
  | .Float, .Float | .Integer, .Float | .Float, .Integer =>
      .ok ⟨.Float, .f (flDiv a.data.as_float rhs.data.as_float)⟩
  | .Integer, .Integer =>
      .ok ⟨.Integer, .f (flDiv a.data.as_float rhs.data.as_float)⟩
  | _, _ => .error "cannot div types"

/-- `impl Neg for Object` (`valuetypes.rs:192-205`). -/
def objNeg (a : Object) : Except VErr Object :=
  match a.tag with
  | .Nil => .ok a
  | .Float | .Integer => .ok ⟨a.tag, .f (flNeg a.data.as_float)⟩
  | _ => .error "cannot negate type"

/-- `PartialOrd::lt` override (`valuetypes.rs:67-75`). -/
def objLt (a other : Object) : Except VErr Bool :=
  match a.tag, other.tag with
  | .Nil, .Nil => .ok false
  | .Integer, .Integer | .Float, _ | _, .Float =>
      .ok (flLt a.data.as_float other.data.as_float)
  | _, _ => .error "cannot compare values of non-numeric objects"

/-- `PartialOrd::le` override (`valuetypes.rs:77-85`). -/
def objLe (a other : Object) : Except VErr Bool :=
  match a.tag, other.tag with
  | .Nil, .Nil => .ok true
  | .Integer, .Integer | .Float, _ | _, .Float =>
      .ok (flLe a.data.as_float other.data.as_float)
  | _, _ => .error "cannot compare values of non-numeric objects"

/-- `PartialOrd::gt` override (`valuetypes.rs:87-95`). -/
def objGt (a other : Object) : Except VErr Bool :=
  match a.tag, other.tag with
  | .Nil, .Nil => .ok false
  | .Integer, .Integer | .Float, _ | _, .Float =>
      .ok (flGt a.data.as_float other.data.as_float)
  | _, _ => .error "cannot compare values of non-numeric objects"

/-- `PartialOrd::ge` override (`valuetypes.rs:97-105`), the comparison
the `for` loop's `ge` opcode dispatches to. -/
def objGe (a other : Object) : Except VErr Bool :=
  match a.tag, other.tag with
  | .Nil, .Nil => .ok true
  | .Integer, .Integer | .Float, _ | _, .Float =>
      .ok (flGe a.data.as_float other.data.as_float)
  | _, _ => .error "cannot compare values of non-numeric objects"

/-- `impl PartialEq for Object` (`valuetypes.rs:207-227`): tags must
match, then the payload is compared per tag — except `Array`, whose
arm is literally `true` (marked `todo` in the source). -/
def objEq (a other : Object) : Bool :=
  a.tag = other.tag &&
    match a.tag with
    | .Nil => true
    | .Float => flEq a.data.as_float other.data.as_float
    | .Bool => a.data.as_bool = other.data.as_bool
    | .Pointer => a.data.as_ptr = other.data.as_ptr
    | .Char => a.data.as_byte = other.data.as_byte
    | .Integer => a.data.as_integer = other.data.as_integer
    | .Byte => a.data.as_byte = other.data.as_byte
    | .UInt => a.data.as_uint = other.data.as_uint
    | .Text => a.data.as_text = other.data.as_text
    | .ConstText => a.data.as_text = other.data.as_text
    | .Array => true

end Coyote

namespace Coyote

/-! ## `cvm/src/ctable.rs` — Table

A dense array part plus a sparse string-keyed part (a `BTreeMap` in the
source, modelled as an association list with insert-replace; only key
lookup and insertion semantics matter to the claims). -/

/-- Insert-or-replace for the sparse map (`BTreeMap::insert`). -/
def mapInsert {α : Type} (key : String) (v : α) :
    List (String × α) → List (String × α)
  | [] => [(key, v)]
  | (k, w) :: rest =>
      if k = key then (k, v) :: rest else (k, w) :: mapInsert key v rest

/-- Key lookup for the sparse map (`BTreeMap::get`). -/
def mapGet {α : Type} (key : String) : List (String × α) → Option α
  | [] => none
  | (k, w) :: rest => if k = key then some w else mapGet key rest

structure Table (α : Type) where
  array : List α
  array_length : ℕ
  hash : List (String × α)
deriving DecidableEq

namespace Table

/-- `Table::new`. -/
def new {α : Type} : Table α := ⟨[], 0, []⟩

/-- `Table::get` (`ctable.rs:43-50`): dense part first when the index
is below `array_length`, otherwise the sparse part under the
stringified index.  (When `index < array_length` the source indexes
`array[index]` directly; on a well-formed table — `array_length =
array.length`, which every constructor below preserves — this is
`array.get? index`.) -/
def get {α : Type} (t : Table α) (index : ℕ) : Option α :=
  if index < t.array_length then t.array.get? index
  else mapGet (toString index) t.hash

/-- `Table::push` (`ctable.rs:52-55`). -/
def push {α : Type} (t : Table α) (value : α) : Table α :=
  { t with array := t.array ++ [value], array_length := t.array_length + 1 }

/-- `Table::hset` (`ctable.rs:57-59`). -/
def hset {α : Type} (t : Table α) (key : String) (value : α) : Table α :=
  { t with hash := mapInsert key value t.hash }

/-- `Table::set` (`ctable.rs:61-77`): overwrite inside the dense part;
append when the index is exactly the dense length; otherwise insert
into the sparse part keyed by the stringified index. -/
def set {α : Type} (t : Table α) (index : ℕ) (value : α) : Table α :=
  if index < t.array_length then
    { t with array := t.array.set index value }
  else if index = t.array_length then
    { t with array_length := t.array_length + 1, array := t.array ++ [value] }
  else
    t.hset (toString index) value

end Table

/-! ## `cvm/src/vm.rs` — virtual machine

The VM loads a binary image produced by the assembler.  The assembler
described by the spec (§4.2) is not present under `src/` (the only
assembler there, `cyasm/src/assembler.rs`, is an older register-machine
assembler), so the byte encoding step is modelled from the spec; see
`Func.ofGen` below.  An instruction stream is modelled as a list of
positioned instructions: `loc` is the byte offset of the opcode within
the subroutine (the generator's `start_location`, which the assembler's
contiguous byte layout preserves), and operands carry their decoded
values.  The byte-for-byte operand round trip through the image is the
identity for every operand arising below (`u16`/`i32` operands in
range; `push` payloads whose `f64` bit-pattern round trip is exact for
magnitudes below `2^53`). -/

/-- The assembly-level instructions exercised by the claims (a subset
of `constants.rs`'s opcode set; the remaining opcodes never occur in
the programs examined). -/
inductive AInstr where
  | push : ℤ → AInstr
  | load : ℕ → AInstr
  | store : ℕ → AInstr
  | call : ℕ → AInstr
  | jmp : ℕ → AInstr
  | jmpfalse : ℕ → AInstr
  | add | div | eq | ge | print | halt | ret | nop
deriving DecidableEq

/-- Byte size of each encoded instruction — opcode byte plus operand
bytes — matching both the generator's size accounting
(`generator.rs`, the `instr!` sizes) and the number of bytes the VM's
handlers consume (`vm.rs`: `get_const` = 1+8, `get_u16` = 2,
`get_i32` = 4). -/
def AInstr.size : AInstr → ℕ
  | .push _ => 10
  | .load _ | .store _ | .call _ => 3
  | .jmp _ | .jmpfalse _ => 5
  | _ => 1

/-- A positioned instruction: the generator's
`(start_location, instruction_size, code)` record (`generator.rs:36-41`;
the unread `jumped` flag is dropped). -/
structure GInstr where
  start_location : ℕ
  instruction_size : ℕ
  code : AInstr
deriving DecidableEq

/-- `cfunction.rs` `Func` as the VM uses it (`vm.rs::load_subs` reads
`arity`, `slots`, `code` from the image; `Func::new`, called for the
initial dummy frame, is not in `src/` — modelled from the spec as the
empty function). -/
structure Func where
  arity : ℕ
  slots : ℕ
  code : List GInstr
deriving DecidableEq

def Func.new : Func := ⟨0, 0, []⟩

/-- `StackFrame` (`vm.rs:20-26`). -/
structure StackFrame where
  function : Func
  ip : ℕ
  start_sp : ℕ
  sp : ℕ
deriving DecidableEq

/-- `StackFrame::new(function, ip, sp, start)` (`vm.rs:28-37`) — note
the argument order: `sp` third, `start` fourth. -/
def StackFrame.new (function : Func) (ip sp start : ℕ) : StackFrame :=
  ⟨function, ip, start, sp⟩

/-- `Vm::push_frame` (`vm.rs:99-111`): take the caller's `sp` when
more than one frame is live (else 0), subtract the callee's arity for
the new frame's start, and push `StackFrame::new(function, 0, sp,
start)`.  The `usize` subtraction `sp - arity` panics on underflow. -/
def push_frame (frames : List StackFrame) (function : Func) :
    Except VErr (List StackFrame) :=
  let sp := if 1 < frames.length then
    (match frames.getLast? with
     | some fr => fr.sp
     | none => 0)
    else 0
  if function.arity ≤ sp then
    .ok (frames ++ [StackFrame.new function 0 sp (sp - function.arity)])
  else .error "usize underflow in push_frame"

/-- VM state: the preallocated value stack (a total map — the source
preallocates 1,000,000 `Nil`s; no execution below approaches the
bound), the frame stack, the loaded subroutine registry, and the
values printed so far (`println!("{}", value)` in dispatch order). -/
structure VmState where
  stack : ℕ → Object
  frames : List StackFrame
  functions : List Func
  output : List Object

/-- Result of one dispatch iteration: continue, or leave the loop
(`Halt`'s `break`). -/
inductive StepRes where
  | cont : VmState → StepRes
  | halted : VmState → StepRes

/-- Replace the current (= last) frame. -/
def VmState.setCur (s : VmState) (fr : StackFrame) : VmState :=
  { s with frames := s.frames.dropLast ++ [fr] }

/-- `Vm::pop` (`vm.rs:181-185`): decrement `sp`, read
`current_stack()[sp]` — i.e. the cell at `start_sp + sp`.  `sp = 0`
underflows the `usize` and panics. -/
def VmState.popVal (s : VmState) (fr : StackFrame) :
    Except VErr (Object × StackFrame) :=
  if fr.sp = 0 then .error "stack underflow"
  else
    let sp := fr.sp - 1
    .ok (s.stack (fr.start_sp + sp), { fr with sp := sp })

/-- `Vm::push` (`vm.rs:187-191`): write `current_stack()[sp]`, then
increment `sp`. -/
def VmState.pushVal (s : VmState) (fr : StackFrame) (obj : Object) :
    VmState × StackFrame :=
  let addr := fr.start_sp + fr.sp
  ({ s with stack := fun n => if n = addr then obj else s.stack n },
   { fr with sp := fr.sp + 1 })

/-- One dispatch arm of `Vm::run` (`vm.rs:402-606`) for an
already-fetched instruction `pi`.  The instruction pointer first
advances past the opcode and operand bytes (the `incr_ip` calls inside
the operand readers); jump handlers then overwrite it. -/
def execInstr (pi : GInstr) (s : VmState) : Except VErr StepRes := do
  let fr ← match s.frames.getLast? with
    | some fr => Except.ok fr
    | none => Except.error "no current frame"
  let next := pi.start_location + pi.code.size
  let fr := { fr with ip := next }
  match pi.code with
  | .push v =>
      -- `get_const` with the `Integer` tag: the 8 payload bytes are the
      -- little-endian f64 bit-pattern of the integer literal (spec §4.2),
      -- exact for the magnitudes occurring here.
      let (s', fr') := s.pushVal fr (intObj v)
      .ok (.cont (s'.setCur fr'))
  | .load slot =>
      let obj := s.stack (fr.start_sp + slot)
      let (s', fr') := s.pushVal fr obj
      .ok (.cont (s'.setCur fr'))
  | .store slot =>
      let (obj, fr') ← s.popVal fr
      let addr := fr'.start_sp + slot
      let s' := { s with stack := fun n => if n = addr then obj else s.stack n }
      .ok (.cont (s'.setCur fr'))
  | .add =>
      -- `binop!(+)`: `left` is the first pop (top of stack).
      let (left, fr1) ← s.popVal fr
      let (right, fr2) ← s.popVal fr1
      let obj ← objAdd left right
      let (s', fr') := s.pushVal fr2 obj
      .ok (.cont (s'.setCur fr'))
  | .div =>
      let (left, fr1) ← s.popVal fr
      let (right, fr2) ← s.popVal fr1
      let obj ← objDiv left right
      let (s', fr') := s.pushVal fr2 obj
      .ok (.cont (s'.setCur fr'))
  | .eq =>
      -- `cmpop!(==)`: push `Bool(left == right)`.
      let (left, fr1) ← s.popVal fr
      let (right, fr2) ← s.popVal fr1
      let (s', fr') := s.pushVal fr2 (boolObj (objEq left right))
      .ok (.cont (s'.setCur fr'))
  | .ge =>
      -- `cmpop!(>=)`: dispatches to the `PartialOrd::ge` override.
      let (left, fr1) ← s.popVal fr
      let (right, fr2) ← s.popVal fr1
      let v ← objGe left right
      let (s', fr') := s.pushVal fr2 (boolObj v)
      .ok (.cont (s'.setCur fr'))
  | .jmp t =>
      .ok (.cont (s.setCur { fr with ip := t }))
  | .jmpfalse t =>
      -- `vm.rs:540-548`: read the target, pop, and jump only when the
      -- popped value is `Bool(false)`; any non-Bool value falls
      -- through silently.
      let (obj, fr') ← s.popVal fr
      if obj.tag = .Bool then
        if obj.data.as_bool = false then
          .ok (.cont (s.setCur { fr' with ip := t }))
        else .ok (.cont (s.setCur fr'))
      else .ok (.cont (s.setCur fr'))
  | .print =>
      let (obj, fr') ← s.popVal fr
      .ok (.cont { (s.setCur fr') with output := s.output ++ [obj] })
  | .call index =>
      -- Fetch the function from the registry and `push_frame` it.
      let func ← match s.functions.get? index with
        | some f => Except.ok f
        | none => Except.error "invalid call target"
      let s' := s.setCur fr
      let frames' ← push_frame s'.frames func
      .ok (.cont { s' with frames := frames' })
  | .ret =>
      -- `pop_frame`: drop the current frame.
      .ok (.cont { (s.setCur fr) with frames := ((s.setCur fr).frames).dropLast })
  | .halt =>
      .ok (.halted (s.setCur fr))
  | .nop =>
      .ok (.cont (s.setCur fr))

/-- Fetch the instruction whose byte offset is the current `ip` and
execute it.  (The source decodes the opcode byte at `ip`; the
assembler lays instructions contiguously at exactly the generator's
`start_location` offsets, so fetching by offset is the same thing.
An `ip` pointing at no instruction start is a decode of garbage —
fatal.) -/
def vmStep (s : VmState) : Except VErr StepRes := do
  let fr ← match s.frames.getLast? with
    | some fr => Except.ok fr
    | none => Except.error "no current frame"
  let pi ← match fr.function.code.find? (fun p => p.start_location = fr.ip) with
    | some pi => Except.ok pi
    | none => Except.error "ip points outside the code"
  execInstr pi s

/-- The dispatch loop with fuel (the source loops until `Halt`;
every execution below halts well within the provided fuel). -/
def runVm : ℕ → VmState → Except VErr (Option VmState)
  | 0, _ => .ok none
  | f + 1, s => do
      match ← vmStep s with
      | .halted s' => .ok (some s')
      | .cont s' => runVm f s'

/-- `Vm::run`'s entry sequence (`vm.rs:288-308`): after loading the
subroutines and string pool, push a frame for subroutine 0 and advance
both of its cursors by subroutine 0's slot count.  The initial dummy
frame from `Vm::new` stays below it. -/
def vmInit (functions : List Func) : Option VmState :=
  match functions.get? 0 with
  | none => none  -- `self.functions[0]` panics
  | some f0 =>
      some { stack := fun _ => nilObj
             frames := [ StackFrame.new Func.new 0 0 0,
                         { function := f0, ip := 0,
                           start_sp := f0.slots, sp := f0.slots } ]
             functions := functions
             output := [] }

end Coyote

namespace Coyote

/-! ## `coyotec/src/generator.rs` — IR generator

The generator walks the syntax tree handed over by the parser
(`coyotec/src/parse/parser.rs`) and fills per-function instruction
lists.  Node kinds are restricted to those the claims' programs use;
nodes with no arm in the source's `generate_code` match (`CodeBlock`,
`Range`, `EndFor`, `Params` at top level) fall into its `_` arm, which
only prints `.end`. -/

inductive NodeTy where
  | root
  | codeBlock
  | integer : ℤ → NodeTy
  | ident : String → NodeTy
  | print
  | funcDef : String → NodeTy
  | params
  | call : String → NodeTy
  | forLoop
  | range
  | endFor
  | block
  | endBlock
deriving DecidableEq

/-- A syntax-tree node: kind, the parser's `can_assign` flag, ordered
children. -/
inductive Node where
  | mk : NodeTy → Bool → List Node → Node

/-- Per-scope symbol list (`generator.rs:16-33`). -/
structure Symbols where
  list : List String
  var_count : ℕ
deriving DecidableEq

def Symbols.new : Symbols := ⟨[], 0⟩

/-- Loop bookkeeping (`generator.rs:70-89`). -/
structure LoopLocations where
  start_location : ℕ
  exit_location : ℕ
  continue_location : ℕ
  breaks : List ℕ
  continue_breaks : List ℕ
deriving DecidableEq

def LoopLocations.new : LoopLocations := ⟨0, 0, 0, [], []⟩

/-- `Function` template (`generator.rs:52-61`). -/
structure GenFunction where
  name : String
  arity : ℕ
  instructions : List GInstr
  current_location : ℕ
  slots : ℕ
  constructed : Bool
deriving DecidableEq

/-- `IrGenerator` state (`generator.rs:91-104`). -/
structure GenState where
  string_pool : List String
  strings_index : ℕ
  scope : ℕ
  offset : ℕ
  symbol_loc : List Symbols
  loop_stack : List LoopLocations
  loop_count : ℕ
  functions : List GenFunction
  func_ptr : ℕ
deriving DecidableEq

/-- List element update helper (Rust's `vec[i] = …` / `vec[i].f = …`;
out-of-range indices never occur in the runs below). -/
def listModify {α : Type} (l : List α) (n : ℕ) (f : α → α) : List α :=
  match l.get? n with
  | some a => l.set n (f a)
  | none => l

/-- List read with default (Rust's panicking `vec[i]`; the default is
never produced in the runs below). -/
def listGetD {α : Type} (l : List α) (n : ℕ) (d : α) : α := (l.get? n).getD d

namespace GenState

/-- `IrGenerator::new` (`generator.rs:144-165`). -/
def init : GenState :=
  { string_pool := [], strings_index := 0, scope := 0, offset := 0,
    symbol_loc := [Symbols.new], loop_stack := [], loop_count := 0,
    functions := [⟨"main", 0, [], 0, 0, false⟩], func_ptr := 0 }

/-- `current_function()`. -/
def curFn (g : GenState) : GenFunction :=
  listGetD g.functions g.func_ptr ⟨"", 0, [], 0, 0, false⟩

def modifyCurFn (g : GenState) (f : GenFunction → GenFunction) : GenState :=
  { g with functions := listModify g.functions g.func_ptr f }

/-- `add_slot` (`generator.rs:176-178`): only `Let` bumps `slots`
through this. -/
def add_slot (g : GenState) : GenState :=
  g.modifyCurFn fun fn => { fn with slots := fn.slots + 1 }

/-- `IrGenerator::push` (`generator.rs:260-271`): record the
instruction at the current location and advance the location cursor by
its size. -/
def push (g : GenState) (code : AInstr) (size : ℕ) : GenState :=
  let instr : GInstr := ⟨g.curFn.current_location, size, code⟩
  g.modifyCurFn fun fn =>
    { fn with current_location := fn.current_location + size,
              instructions := fn.instructions ++ [instr] }

/-- Rewrite the `code` of the instruction at list index `i` of the
current function, keeping its offset and size (the For/While/If patch
writes `instructions[i].code = format!(…)`). -/
def patch (g : GenState) (i : ℕ) (code : AInstr) : GenState :=
  g.modifyCurFn fun fn =>
    { fn with instructions :=
        listModify fn.instructions i (fun pi => { pi with code := code }) }

/-- `push_scope` (`generator.rs:241-248`). -/
def push_scope (g : GenState) : GenState :=
  let offset := (listGetD g.symbol_loc g.scope Symbols.new).var_count
  { g with scope := g.scope + 1,
           symbol_loc := g.symbol_loc ++ [Symbols.new],
           offset := g.offset + offset }

/-- `pop_scope` (`generator.rs:250-258`). -/
def pop_scope (g : GenState) : GenState :=
  let g := { g with scope := g.scope - 1, symbol_loc := g.symbol_loc.dropLast }
  { g with offset := g.offset -
      (listGetD g.symbol_loc g.scope Symbols.new).var_count }

/-- `store_variable` (`generator.rs:215-218`): register the name in the
current scope and return its slot, `register_symbol`'s index plus the
global `offset`. -/
def store_variable (g : GenState) (name : String) : GenState × ℕ :=
  let sym := listGetD g.symbol_loc g.scope Symbols.new
  let idx := sym.var_count
  let sym' : Symbols := ⟨sym.list ++ [name], sym.var_count + 1⟩
  ({ g with symbol_loc := g.symbol_loc.set g.scope sym' }, idx + g.offset)

/-- Inner loop of `get_variable` (`generator.rs:227-239`): walk scopes
from `i` downward; after missing scope `i > 0`, subtract scope
`i - 1`'s count from the running offset.  (The `usize` subtractions
stay in range in every run below.) -/
def getVarAux (symtab : List Symbols) (name : String) :
    ℕ → ℕ → Option ℕ
  | 0, offset =>
      match (listGetD symtab 0 Symbols.new).list.findIdx? (· = name) with
      | some index => some (index + offset)
      | none => none
  | i + 1, offset =>
      match (listGetD symtab (i + 1) Symbols.new).list.findIdx? (· = name) with
      | some index => some (index + offset)
      | none =>
          getVarAux symtab name i
            (offset - (listGetD symtab i Symbols.new).var_count)

/-- `get_variable`: resolve a name to a slot; missing names panic. -/
def get_variable (g : GenState) (name : String) : Except VErr ℕ :=
  match getVarAux g.symbol_loc name g.scope g.offset with
  | some v => .ok v
  | none => .error "Variable not found in symbol loc"

/-- `get_function_index` (`generator.rs:279-296`): an existing name
resolves to its position; otherwise a placeholder is appended and —
verbatim from the source — `func_ptr` is incremented and THE NEW
`func_ptr` is returned (not the placeholder's position). -/
def get_function_index (g : GenState) (f_name : String) : GenState × ℕ :=
  match g.functions.findIdx? (fun f => f.name = f_name) with
  | some position => (g, position)
  | none =>
      let fn : GenFunction := ⟨f_name, 0, [], 0, 0, false⟩
      let g := { g with functions := g.functions ++ [fn],
                        func_ptr := g.func_ptr + 1 }
      (g, g.func_ptr)

def push_loop (g : GenState) (l : LoopLocations) : GenState :=
  { g with loop_stack := g.loop_stack ++ [l], loop_count := g.loop_count + 1 }

def pop_loop (g : GenState) : GenState :=
  { g with loop_stack := g.loop_stack.dropLast, loop_count := g.loop_count - 1 }

/-- `get_loop_locations` (read). -/
def curLoop (g : GenState) : LoopLocations :=
  listGetD g.loop_stack (g.loop_count - 1) LoopLocations.new

/-- `get_loop_locations` (write through). -/
def modifyLoop (g : GenState) (f : LoopLocations → LoopLocations) : GenState :=
  { g with loop_stack := listModify g.loop_stack (g.loop_count - 1) f }

end GenState

/-- Work items for the generator recursion: a single node
(`generate_code`), a child sequence, the `For` arm's child loop
carrying its two slot variables (`iter_var_location`,
`iter2_var_location`), or the `Function` arm's child loop carrying the
function's registry index.  A single fuel-structural function keeps
the whole recursion kernel-reducible. -/
inductive GenTask where
  | one : Node → GenTask
  | many : List Node → GenTask
  | forKids : List Node → ℕ → ℕ → GenTask
  | fnKids : ℕ → List Node → GenTask

/-- `generate_code` (`generator.rs:303-698`), restricted to the node
kinds above, as a fuel-indexed recursion (every program below is
settled by running it with ample fuel).  The `.many` case sequences a
child list; `.forKids` is the `For` arm's child loop; `.fnKids` is the
`Function` arm's child loop.  The `ℕ × ℕ` result component only
carries `.forKids`'s loop-variable slots; it is `(0, 0)` elsewhere. -/
def genAux : ℕ → GenTask → GenState → Except VErr (GenState × ℕ × ℕ)
  | 0, _, _ => .error "fuel exhausted"
  | fuel + 1, .one (.mk ty canAssign children), g =>
    match ty with
    | .root => genAux fuel (.many children) g
    | .integer value => .ok (g.push (.push value) 10, 0, 0)
    | .print => do
        let (g, _, _) ← genAux fuel (.many children) g
        .ok (g.push .print 1, 0, 0)
    | .block => .ok (g.push_scope, 0, 0)
    | .endBlock => .ok (g.pop_scope, 0, 0)
    | .ident name => do
        let index ← g.get_variable name
        -- The child loop marks `is_array` for any child and would emit
        -- `astore`/`index` for `ArrayElement` children (no program
        -- below has identifier children), then returns.
        if children.isEmpty then
          if canAssign then .ok (g.push (.store index) 3, 0, 0)
          else .ok (g.push (.load index) 3, 0, 0)
        else .ok (g, 0, 0)
    | .call function_name => do
        let (g, _, _) ← genAux fuel (.many children) g
        let (g, index) := g.get_function_index function_name
        .ok (g.push (.call index) 3, 0, 0)
    | .funcDef func_name =>
        let (g, index) := g.get_function_index func_name
        let g := { g with func_ptr := index }
        let g := g.push_scope
        (do
          let (g, _, _) ← genAux fuel (.fnKids index children) g
          let g := g.modifyCurFn fun fn => { fn with constructed := true }
          let g := { g with func_ptr := 0 }
          .ok (g.pop_scope, 0, 0))
    | .forLoop =>
        let g := g.push_loop LoopLocations.new
        (do
          let (g, _, _) ← genAux fuel (.forKids children 0 0) g
          .ok (g.pop_loop, 0, 0))
    | _ => .ok (g, 0, 0)  -- `_ => println!(".end")`: no state change
  | _ + 1, .many [], g => .ok (g, 0, 0)
  | fuel + 1, .many (n :: ns), g => do
      let (g, _, _) ← genAux fuel (.one n) g
      genAux fuel (.many ns) g
  | _ + 1, .forKids [] iter_var_location iter2_var_location, g =>
      .ok (g, iter_var_location, iter2_var_location)
  | fuel + 1, .forKids (.mk cty _ cchildren :: rest) iter_var_location iter2_var_location, g => do
      let (g, iter_var_location, iter2_var_location) ←
        match cty with
        | .codeBlock => do
            let loc := g.curFn.current_location
            let g := g.modifyLoop fun l => { l with start_location := loc }
            let g := g.push (.load iter_var_location) 3
            let g := g.push (.load iter2_var_location) 3
            -- "This takes up 2 slots in the function"
            let g := g.modifyCurFn fun fn => { fn with slots := fn.slots + 2 }
            let g := g.push .ge 1
            let g := g.push (.jmpfalse 0) 5
            let g := g.modifyLoop fun l =>
              { l with exit_location := g.curFn.instructions.length - 1 }
            let (g, _, _) ← genAux fuel (.many cchildren) g
            let continue_loc := g.curFn.current_location
            let g := g.modifyLoop fun l =>
              { l with continue_location := continue_loc }
            let g := g.push (.load iter_var_location) 3
            let g := g.push (.push 1) 10
            let g := g.push .add 1
            let g := g.push (.store iter_var_location) 3
            Except.ok (g, iter_var_location, iter2_var_location)
        | .range => do
            let (g, _, _) ← genAux fuel (.many cchildren) g
            let g := g.push (.store iter2_var_location) 3
            let g := g.push (.store iter_var_location) 3
            Except.ok (g, iter_var_location, iter2_var_location)
        | .ident iter_name =>
            let (g, l1) := g.store_variable iter_name
            let (g, l2) := g.store_variable "$2"
            Except.ok (g, l1, l2)
        | .endFor =>
            let loc := g.curLoop.start_location
            let g := g.push (.jmp loc) 5
            let cur_loc := g.curFn.current_location
            let instr_loc := g.curLoop.exit_location
            let g := g.patch instr_loc (.jmpfalse cur_loc)
            let breaks := g.curLoop.breaks
            let g := breaks.foldl (fun g i => g.patch i (.jmp cur_loc)) g
            let loc2 := g.curLoop.continue_location
            let continues := g.curLoop.continue_breaks
            let g := continues.foldl (fun g i => g.patch i (.jmp loc2)) g
            Except.ok (g, iter_var_location, iter2_var_location)
        | _ => Except.ok (g, iter_var_location, iter2_var_location)
      genAux fuel (.forKids rest iter_var_location iter2_var_location) g
  | _ + 1, .fnKids _ [], g => .ok (g, 0, 0)
  | fuel + 1, .fnKids index (.mk cty _ cchildren :: rest), g => do
      let g ←
        match cty with
        | .ident name =>
            Except.ok (g.modifyCurFn fun fn => { fn with name := name })
        | .params =>
            Except.ok (cchildren.foldl (fun g param =>
              match param with
              | .mk (.ident var) _ _ =>
                  let (g, _loc) := g.store_variable var
                  g.modifyCurFn fun fn => { fn with arity := fn.arity + 1 }
              | _ => g) g)
        | .codeBlock => do
            let (g, _, _) ← genAux fuel (.many cchildren) g
            if index = 0 then Except.ok (g.push .halt 1)
            else Except.ok (g.push .ret 1)
        | _ => Except.error "Unexpected child for a function"
      genAux fuel (.fnKids index rest) g

/-- `generate` (`generator.rs:106-110`): run the generator from a
fresh state on the whole tree. -/
def genProgram (node : Node) : Except VErr GenState :=
  (genAux 200 (.one node) GenState.init).map (fun r => r.1)

/-- Modelled from the spec: the §4.2 assembler and the §4.3 loader
are not under `src/` (the only assembler there is the older
register-machine `cyasm/src/assembler.rs`), so their composition is
modelled from the spec's words: each `.sub` header's `arity`/`slots`
are packed as `u8` and the code lines are re-encoded byte for byte at
the generator's offsets, which the VM's `load_subs` reads back into a
`Func`.  Operand values round trip unchanged (§4.2's typed fixed-width
encodings; `push` payloads through the f64 bit-pattern, exact below
`2^53`). -/
def Func.ofGen (f : GenFunction) : Func :=
  ⟨f.arity % 256, f.slots % 256, f.instructions⟩

end Coyote

namespace Coyote

/-! ## Concrete programs for the claims

The trees below are exactly what `coyotec/src/parse/parser.rs` builds
for the quoted sources: `parse()` wraps the whole program in
`Root[Function("main")[CodeBlock[…]]]`; a `for` statement becomes
`For[Ident(i), Range[lo, hi], CodeBlock[Block, …, EndBlock], EndFor]`
(the braces contribute the `Block`/`EndBlock` children); `print e`
becomes `Print[e]`; a function definition becomes
`Function(name)[Params[Ident(p)…], CodeBlock[…]]`; a call expression
becomes `Call(name)[args…]`. -/

/-- AST of `for i in 0 to 3 { print i } endfor` (spec §8, scenario 5). -/
def astC2 : Node :=
  .mk .root false
    [.mk (.funcDef "main") false
      [.mk .codeBlock false
        [.mk .forLoop false
          [.mk (.ident "i") false [],
           .mk .range false
             [.mk (.integer 0) false [], .mk (.integer 3) false []],
           .mk .codeBlock false
             [.mk .block false [],
              .mk .print false [.mk (.ident "i") false []],
              .mk .endBlock false []],
           .mk .endFor false []]]]]

/-- Generator output for scenario 5. -/
def genC2 : Except VErr GenState := genProgram astC2

/-- Scenario 5 end to end: generate, assemble/load (`Func.ofGen`),
run the VM, collect what `print` wrote. -/
def c2Output : Option (List Object) :=
  match genC2 with
  | .error _ => none
  | .ok g =>
      match vmInit (g.functions.map Func.ofGen) with
      | none => none
      | some s =>
          match runVm 400 s with
          | .ok (some s') => some s'.output
          | _ => none

/-- AST of `fn f(a)\n print a\nendfn` — a function with one parameter
whose body reads it. -/
def astC5 : Node :=
  .mk .root false
    [.mk (.funcDef "main") false
      [.mk .codeBlock false
        [.mk (.funcDef "f") false
          [.mk .params false [.mk (.ident "a") false []],
           .mk .codeBlock false
             [.mk .print false [.mk (.ident "a") false []]]]]]]

/-- Generator output for `astC5` (the `.error` fallback is never the
value: the first conjunct of the C5 theorem pins the real output). -/
def genC5out : GenState :=
  match genProgram astC5 with
  | .ok g => g
  | .error _ => GenState.init

/-- Does one instruction respect the slot bound? (`true` for
instructions that are not `load`/`store`.) -/
def slotOk (slots : ℕ) : AInstr → Bool
  | .load k => k < slots
  | .store k => k < slots
  | _ => true

/-- The spec's slot-safety invariant (§8, universal invariant 6): every
emitted `load k`/`store k` of every function satisfies
`k < function.slots`. -/
def slotSafe (g : GenState) : Prop :=
  ∀ f ∈ g.functions, ∀ pi ∈ f.instructions, slotOk f.slots pi.code = true

instance (g : GenState) : Decidable (slotSafe g) :=
  inferInstanceAs (Decidable (∀ f ∈ g.functions, ∀ pi ∈ f.instructions, _))

/-- AST of `fn a()\nendfn\n b()\n fn b()\nendfn` — a definition of `a`,
then a call to the not-yet-defined `b`, then the definition of `b`. -/
def astC6 : Node :=
  .mk .root false
    [.mk (.funcDef "main") false
      [.mk .codeBlock false
        [.mk (.funcDef "a") false
          [.mk .params false [], .mk .codeBlock false []],
         .mk (.call "b") false [],
         .mk (.funcDef "b") false
          [.mk .params false [], .mk .codeBlock false []]]]]

def genC6out : GenState :=
  match genProgram astC6 with
  | .ok g => g
  | .error _ => GenState.init

end Coyote

namespace Coyote

/-! ## Probe states for single-step VM facts -/

/-- Project one dispatch step to its observable outcome: the panic
message, or `none` on halt, or `(top-of-stack, ip, sp)` of the current
frame afterwards. -/
def stepProbe (s : VmState) : VErr ⊕ Option (Object × ℕ × ℕ) :=
  match vmStep s with
  | .error e => Sum.inl e
  | .ok (.halted _) => Sum.inr none
  | .ok (.cont s') =>
      match s'.frames.getLast? with
      | none => Sum.inr none
      | some fr =>
          Sum.inr (some (s'.stack (fr.start_sp + (fr.sp - 1)), fr.ip, fr.sp))

/-- Code `div; halt` for the division probe. -/
def c3Func : Func := ⟨0, 0, [⟨0, 1, .div⟩, ⟨1, 1, .halt⟩]⟩

/-- About to execute `div` with `Integer 1` on top of `Integer 0`
(operands lowered RHS first, so `left = 1`, `right = 0`). -/
def c3State : VmState :=
  { stack := fun n => if n = 0 then intObj 0 else if n = 1 then intObj 1 else nilObj
    frames := [StackFrame.new Func.new 0 0 0, ⟨c3Func, 0, 0, 2⟩]
    functions := [c3Func]
    output := [] }

/-- Code `jmpfalse 99; halt` for the wrong-variant-pop probe. -/
def c7Func : Func := ⟨0, 0, [⟨0, 5, .jmpfalse 99⟩, ⟨5, 1, .halt⟩]⟩

/-- About to execute `jmpfalse 99` with a non-Bool (`Integer 5`) on
top of the stack. -/
def c7State : VmState :=
  { stack := fun n => if n = 0 then intObj 5 else nilObj
    frames := [StackFrame.new Func.new 0 0 0, ⟨c7Func, 0, 0, 1⟩]
    functions := [c7Func]
    output := [] }

/-- Code `eq; halt` for the array-equality probe. -/
def c10Func : Func := ⟨0, 0, [⟨0, 1, .eq⟩, ⟨1, 1, .halt⟩]⟩

/-- About to execute `eq` on two distinct `Array` objects (distinct
heap handles in the payload). -/
def c10State : VmState :=
  { stack := fun n =>
      if n = 0 then ⟨.Array, .ptr 100⟩
      else if n = 1 then ⟨.Array, .ptr 200⟩ else nilObj
    frames := [StackFrame.new Func.new 0 0 0, ⟨c10Func, 0, 0, 2⟩]
    functions := [c10Func]
    output := [] }

/-- Two's-complement wrapping of an integer into the `i64` range —
what the claim C4 asserts `add`/`sub`/`mul` compute. -/
def wrap64 (n : ℤ) : ℤ := (n + 2 ^ 63) % 2 ^ 64 - 2 ^ 63

/-- Numeric runtime values in the sense of spec §3 ("Ordering is
defined only for numeric variants"). -/
def isNumeric (o : Object) : Prop := o.tag = .Integer ∨ o.tag = .Float

instance (o : Object) : Decidable (isNumeric o) := by
  unfold isNumeric; infer_instance

end Coyote

namespace Coyote

set_option maxRecDepth 8000
set_option exponentiation.threshold 2000

/-! ## Helper lemmas -/

theorem ratTrunc_intCast (m : ℤ) : ratTrunc (m : ℚ) = m := by
  unfold ratTrunc
  split
  · exact_mod_cast Int.floor_intCast m
  · rw [← Int.cast_neg, Int.floor_intCast]
    omega

theorem i64cast_intCast (m : ℤ) (h : m.natAbs ≤ 2 ^ 53) :
    i64cast (.fin (m : ℚ)) = m := by
  simp only [i64cast, ratTrunc_intCast]
  split_ifs <;> omega

theorem natLog2_one : natLog2 1 = 0 := rfl

theorem rnd_intCast (n : ℤ) (h : n.natAbs ≤ 2 ^ 53) :
    rnd (n : ℚ) = .fin (n : ℚ) := by
  rcases Nat.lt_or_ge n.natAbs (2 ^ 53) with h' | h'
  · have hrepr : isRepr (n : ℚ) = true := by
      unfold isRepr
      rw [Rat.den_intCast, Rat.num_intCast, natLog2_one]
      simp
      exact Or.inr (Or.inl (by omega))
    unfold rnd
    rw [hrepr]
    simp
  · have he : n.natAbs = 2 ^ 53 := le_antisymm h h'
    have hrepr : isRepr (n : ℚ) = true := by
      unfold isRepr
      rw [Rat.den_intCast, Rat.num_intCast, natLog2_one, he]
      simp
      exact Or.inr (by decide)
    unfold rnd
    rw [hrepr]
    simp

end Coyote

namespace Coyote

/-! ## Claims -/

deriving instance DecidableEq for Except

/- Batteries marks `Rat.add`/`Rat.mul`/`Rat.sub`/`Rat.inv` irreducible;
the concrete evaluations below need them to reduce. -/
unseal Rat.add Rat.mul Rat.sub Rat.inv

set_option maxRecDepth 20000
set_option exponentiation.threshold 2000

/-- C1.  The claim states that `call idx`, with at least one frame
active, pushes a frame with `start = caller.sp - arity`, `sp = start +
slots`, `ip = 0`, reserving `slots - arity` local cells.  The code
(`Vm::push_frame`, `vm.rs:99-111`) does set `start = caller.sp - arity`
and `ip = 0`, but the new frame's `sp` is the caller's `sp` — that is
`start + arity`, NOT `start + slots`.  Evaluated here on a caller
frame with `sp = 5` and a callee with `arity = 1`, `slots = 3`: the
pushed frame is `{ip := 0, start_sp := 4, sp := 5}`, and
`5 ≠ 4 + slots = 7`. -/
theorem c1_push_frame_sp_is_start_plus_arity :
    push_frame [StackFrame.new Func.new 0 0 0, ⟨⟨0, 0, []⟩, 7, 2, 5⟩] ⟨1, 3, []⟩ =
      .ok [StackFrame.new Func.new 0 0 0, ⟨⟨0, 0, []⟩, 7, 2, 5⟩,
           ⟨⟨1, 3, []⟩, 0, 4, 5⟩] ∧
    (⟨⟨1, 3, []⟩, 0, 4, 5⟩ : StackFrame).sp =
      (⟨⟨1, 3, []⟩, 0, 4, 5⟩ : StackFrame).start_sp + (⟨1, 3, []⟩ : Func).arity ∧
    (⟨⟨1, 3, []⟩, 0, 4, 5⟩ : StackFrame).sp ≠
      (⟨⟨1, 3, []⟩, 0, 4, 5⟩ : StackFrame).start_sp + (⟨1, 3, []⟩ : Func).slots := by
  decide

/-- C2.  For `for i in 0 to 3 { print i } endfor`, the generated loop
test is `load i; load $2; ge; jmpfalse exit` and the VM's `cmpop!` pops
the target `$2` first (`left`), so the body runs while `3 >= i` — for
`i = 0,1,2,3`.  The pipeline (generator → assembler → VM) therefore
prints FOUR lines `0 1 2 3`, not the three lines `0 1 2` the claim
(spec §8, scenario 5) expects.  (The VM additionally interleaves
`vm_debug!`/`display_stack!` trace lines on stdout; `c2Output` collects
what the `print` instruction itself writes.) -/
theorem c2_for_loop_prints_four_lines :
    c2Output = some [intObj 0, intObj 1, intObj 2, intObj 3] ∧
    c2Output ≠ some [intObj 0, intObj 1, intObj 2] := by
  decide

/-- C5.  The claim (spec §8, universal invariant 6) requires every
emitted `load k`/`store k` to satisfy `k < slots`, with `slots`
covering parameters.  But the generator's `Params` handling
(`generator.rs:432-439`) increments `arity` without ever incrementing
`slots` (only `Let` and the hidden `For` pair do), so for
`fn f(a): print a` the function `f` has `slots = 0` yet its body emits
`load 0`. -/
theorem c5_param_load_breaks_slot_safety :
    (∃ f ∈ genC5out.functions, f.name = "f" ∧ f.arity = 1 ∧ f.slots = 0 ∧
       ∃ pi ∈ f.instructions, pi.code = .load 0) ∧
    ¬ slotSafe genC5out := by
  decide

/-- C6.  For `fn a() endfn; b(); fn b() endfn`, the forward call to
`b` registers the placeholder at registry index 2, but
`get_function_index` (`generator.rs:279-296`) returns `func_ptr + 1 =
1` for a fresh registration — the index of `a` — and, `func_ptr` now
corrupted, the `call 1` instruction is appended to `a`'s code instead
of `main`'s.  So the emitted call operand (1) differs from the registry
index of the subroutine bearing the called name (`b` at 2). -/
theorem c6_forward_call_gets_wrong_index :
    (genC6out.functions.map fun f => f.name) = ["main", "a", "b"] ∧
    (genC6out.functions.map fun f => f.instructions.map fun pi => pi.code) =
      [[.halt], [.ret, .call 1], [.ret]] ∧
    (genC6out.functions.findIdx? fun f => f.name = "b") = some 2 ∧
    (1 : ℕ) ≠ 2 := by
  decide

/-- C10.  `impl PartialEq for Object` compares `Array`-tagged values by
tag alone (its `Array` arm is literally `true`, `valuetypes.rs:221-224`),
so `eq` on ANY two arrays — whatever their payload handles — yields
`true`, and the VM's `Eq` handler pushes `Bool(true)`: stepping
`c10State` (two distinct array handles on the stack) pushes
`boolObj true`. -/
theorem c10_array_eq_always_true (d1 d2 : Value) :
    objEq ⟨.Array, d1⟩ ⟨.Array, d2⟩ = true ∧
    stepProbe c10State = .inr (some (boolObj true, 1, 1)) := by
  exact ⟨rfl, by decide⟩

/-- C3 counterexample.  The claim says Integer `div` with a zero right
operand is fatal.  Stepping `c3State` (Integer 1 over Integer 0, about
to `div`): the step does NOT produce an error — it pushes
`⟨Integer, f ∞⟩` (the `Div` impl divides the floats, `1.0/0.0 = +∞`)
and continues at the next instruction. -/
theorem c3_div_by_zero_pushes_infinity :
    (stepProbe c3State).isLeft = false ∧
    stepProbe c3State = .inr (some (⟨.Integer, .f .inf⟩, 1, 1)) := by
  decide

/-- C4 counterexample.  The claim asserts two's-complement wrapping
for Integer `add`.  At `a = b = 2^62`: the code adds the `f64`
payloads (exactly `2^63`), and reading the result `as_integer`
saturates to `2^63 - 1`, whereas wrapping demands `-2^63`. -/
theorem c4_large_add_saturates_not_wraps :
    objAdd (intObj (2 ^ 62)) (intObj (2 ^ 62)) =
      .ok ⟨.Integer, .f (.fin ((2 : ℚ) ^ 63))⟩ ∧
    (objAdd (intObj (2 ^ 62)) (intObj (2 ^ 62))).map
        (fun o => o.data.as_integer) = .ok (2 ^ 63 - 1) ∧
    wrap64 (2 ^ 62 + 2 ^ 62) = -(2 ^ 63) ∧
    ((2 : ℤ) ^ 63 - 1) ≠ -(2 ^ 63) := by
  refine ⟨by decide, by decide, by decide, by decide⟩

/-- C9 counterexample.  The claim quantifies over every Float value.
With `a = Float NaN` and `b = Integer 0`, both `a <= b` and `a > b`
evaluate to `Ok(false)` (every `f64` comparison involving NaN is
false), so "`a <= b` iff `!(a > b)`" fails; the claim as a whole is
false at this input. -/
theorem c9_nan_breaks_antisymmetry :
    isNumeric (floatObj .nan) ∧ isNumeric (intObj 0) ∧
    ¬((objLt (floatObj .nan) (intObj 0) = objGt (intObj 0) (floatObj .nan)) ∧
      (objLe (floatObj .nan) (intObj 0) = .ok true ↔
        ¬(objGt (floatObj .nan) (intObj 0) = .ok true))) := by
  decide

/-- C7 counterexample.  The claim says a wrong-variant pop at
`jmpfalse` is fatal.  Stepping `c7State` (an `Integer 5` on top, about
to execute `jmpfalse 99`): no error — the value is popped
(`sp: 1 → 0`), the jump is NOT taken, and execution continues at the
next instruction (`ip = 5`). -/
theorem c7_jmpfalse_nonbool_not_fatal :
    (stepProbe c7State).isLeft = false ∧
    stepProbe c7State = .inr (some (intObj 5, 5, 0)) := by
  decide

end Coyote

namespace Coyote

set_option maxRecDepth 20000

/-- C3 (amended).  Integer division by zero is NOT fatal: for every
Integer left operand `a`, `objDiv` over a zero divisor succeeds,
producing an `Integer`-tagged object whose float payload is `+∞` for
`a > 0`, `-∞` for `a < 0`, and NaN for `0/0`; the VM's `Div` handler
pushes it and execution continues (second conjunct: the concrete step
on `c3State`). -/
theorem c3_div_by_zero_amended :
    (∀ a : ℤ, objDiv (intObj a) (intObj 0) =
      .ok ⟨.Integer, .f (if a = 0 then .nan else if 0 < a then .inf else .ninf)⟩) ∧
    stepProbe c3State = .inr (some (⟨.Integer, .f .inf⟩, 1, 1)) := by
  constructor
  · intro a
    simp only [objDiv, intObj, Value.as_float, flDiv]
    have h0 : ((0 : ℤ) : ℚ) = 0 := by norm_num
    rw [h0]
    simp only [if_pos rfl]
    by_cases ha : a = 0
    · simp [ha]
    · have ha' : ((a : ℚ) = 0) ↔ False := by simp [ha]
      by_cases hpos : 0 < a
      · have : (0 : ℚ) < (a : ℚ) := by exact_mod_cast hpos
        simp [ha, hpos, this]
      · have : ¬ ((0 : ℚ) < (a : ℚ)) := by exact_mod_cast hpos
        simp [ha, hpos, this]
  · decide

end Coyote

namespace Coyote

/-- C4 (amended).  Integer `add`/`sub`/`mul` compute in `f64`: for
Integer operands representable below `2^53`, whenever the exact result
also has magnitude at most `2^53`, the produced object is the exact
Integer result (its `as_integer` view equals the mathematical value,
which in that range coincides with two's-complement wrapping,
`wrap64`).  Outside that range the result follows `f64`
rounding/saturation, not wrapping (see the counterexample). -/
theorem c4_small_integer_arithmetic_exact (a b : ℤ)
    (_ha : a.natAbs ≤ 2 ^ 53) (_hb : b.natAbs ≤ 2 ^ 53) :
    ((a + b).natAbs ≤ 2 ^ 53 →
      objAdd (intObj a) (intObj b) = .ok (intObj (a + b)) ∧
      (intObj (a + b)).data.as_integer = a + b ∧ wrap64 (a + b) = a + b) ∧
    ((a - b).natAbs ≤ 2 ^ 53 →
      objSub (intObj a) (intObj b) = .ok (intObj (a - b)) ∧
      (intObj (a - b)).data.as_integer = a - b ∧ wrap64 (a - b) = a - b) ∧
    ((a * b).natAbs ≤ 2 ^ 53 →
      objMul (intObj a) (intObj b) = .ok (intObj (a * b)) ∧
      (intObj (a * b)).data.as_integer = a * b ∧ wrap64 (a * b) = a * b) := by
  refine ⟨fun h => ⟨?_, ?_, ?_⟩, fun h => ⟨?_, ?_, ?_⟩, fun h => ⟨?_, ?_, ?_⟩⟩
  · simp only [objAdd, intObj, Value.as_float, flAdd]
    rw [show (a : ℚ) + (b : ℚ) = ((a + b : ℤ) : ℚ) by push_cast; ring]
    rw [rnd_intCast _ h]
  · simp only [intObj, Value.as_integer, Value.as_float]
    exact i64cast_intCast _ h
  · unfold wrap64; omega
  · simp only [objSub, intObj, Value.as_float, flSub]
    rw [show (a : ℚ) - (b : ℚ) = ((a - b : ℤ) : ℚ) by push_cast; ring]
    rw [rnd_intCast _ h]
  · simp only [intObj, Value.as_integer, Value.as_float]
    exact i64cast_intCast _ h
  · unfold wrap64; omega
  · simp only [objMul, intObj, Value.as_float, flMul]
    rw [show (a : ℚ) * (b : ℚ) = ((a * b : ℤ) : ℚ) by push_cast; ring]
    rw [rnd_intCast _ h]
  · simp only [intObj, Value.as_integer, Value.as_float]
    exact i64cast_intCast _ h
  · unfold wrap64; omega

/-- Witness for C4 at `a = 3`, `b = 4`. -/
theorem c4_small_integer_arithmetic_witness :
    objAdd (intObj 3) (intObj 4) = .ok (intObj 7) ∧
    objSub (intObj 3) (intObj 4) = .ok (intObj (-1)) ∧
    objMul (intObj 3) (intObj 4) = .ok (intObj 12) :=
  ⟨((c4_small_integer_arithmetic_exact 3 4 (by decide) (by decide)).1 (by decide)).1,
   ((c4_small_integer_arithmetic_exact 3 4 (by decide) (by decide)).2.1 (by decide)).1,
   ((c4_small_integer_arithmetic_exact 3 4 (by decide) (by decide)).2.2 (by decide)).1⟩

end Coyote

namespace Coyote

/-- Extract the frame stack of a continuing step result (projection
used to state closed corollaries without binders). -/
def contFrames (r : Except VErr StepRes) : Option (List StackFrame) :=
  match r with
  | .ok (.cont s') => some s'.frames
  | _ => none

/-- C7 (amended).  Executing `jmpfalse t` pops exactly one value and
never faults (beyond stack underflow): with a `Bool b` on top the
instruction pointer becomes `t` exactly when `b` is false, and with
any non-Bool value on top the jump is silently not taken — execution
continues at the next instruction (`l + 5`), with no diagnostic. -/
theorem c7_jmpfalse_pops_and_falls_through (s : VmState) (fr : StackFrame)
    (rest : List StackFrame) (l t : ℕ)
    (hfr : s.frames = rest ++ [fr]) (hsp : 0 < fr.sp) :
    execInstr ⟨l, 5, .jmpfalse t⟩ s =
      .ok (.cont { s with frames := rest ++
        [{ fr with sp := fr.sp - 1,
                   ip := if (s.stack (fr.start_sp + (fr.sp - 1))).tag = .Bool ∧
                            (s.stack (fr.start_sp + (fr.sp - 1))).data.as_bool = false
                         then t else l + 5 }] }) := by
  have hlast : s.frames.getLast? = some fr := by rw [hfr]; simp
  have hdrop : s.frames.dropLast = rest := by rw [hfr]; simp
  have hne : ¬ (fr.sp = 0) := Nat.pos_iff_ne_zero.mp hsp
  simp only [execInstr, hlast, AInstr.size, VmState.popVal, VmState.setCur, hdrop,
    Bind.bind, Except.bind, pure, Except.pure, hne, if_false]
  by_cases h1 : (s.stack (fr.start_sp + (fr.sp - 1))).tag = DataTag.Bool
  · by_cases h2 : (s.stack (fr.start_sp + (fr.sp - 1))).data.as_bool = false
    · simp [h1, h2]
    · simp [h1, h2]
  · simp [h1]

/-- Witness for C7 on `c7State`: the non-Bool top (`Integer 5`) is
popped (`sp` 1 → 0) and execution continues at `ip = 5` — the next
instruction — in the same frame stack. -/
theorem c7_jmpfalse_pops_and_falls_through_witness :
    contFrames (execInstr ⟨0, 5, .jmpfalse 99⟩ c7State) =
      some [StackFrame.new Func.new 0 0 0, ⟨c7Func, 5, 0, 0⟩] := by
  rw [c7_jmpfalse_pops_and_falls_through c7State ⟨c7Func, 0, 0, 1⟩
    [StackFrame.new Func.new 0 0 0] 0 99 rfl (by decide)]
  decide

end Coyote

namespace Coyote

/-- C8.  `Table` semantics exactly as claimed: `push` appends to the
dense part; `set i v` overwrites the dense element for `i` below the
dense length, extends the dense part by one at `i` equal to the
length, and otherwise stores under the stringified key; `get i` reads
the dense part below the length and otherwise looks up the
stringified key (yielding `none` when absent). -/
theorem c8_table_push_set_get {α : Type} (t : Table α) (i : ℕ) (v : α) :
    ((t.push v).array = t.array ++ [v] ∧
      (t.push v).array_length = t.array_length + 1 ∧ (t.push v).hash = t.hash) ∧
    (i < t.array_length →
      (t.set i v).array = t.array.set i v ∧
      (t.set i v).array_length = t.array_length ∧ (t.set i v).hash = t.hash) ∧
    (i = t.array_length →
      (t.set i v).array = t.array ++ [v] ∧
      (t.set i v).array_length = t.array_length + 1 ∧ (t.set i v).hash = t.hash) ∧
    (t.array_length < i →
      (t.set i v).hash = mapInsert (toString i) v t.hash ∧
      (t.set i v).array = t.array ∧ (t.set i v).array_length = t.array_length) ∧
    (i < t.array_length → t.get i = t.array.get? i) ∧
    (t.array_length ≤ i → t.get i = mapGet (toString i) t.hash) := by
  refine ⟨⟨rfl, rfl, rfl⟩, fun h => ?_, fun h => ?_, fun h => ?_, fun h => ?_,
    fun h => ?_⟩
  · simp [Table.set, h]
  · have h1 : ¬ i < t.array_length := by omega
    simp [Table.set, h, h1]
  · have h1 : ¬ i < t.array_length := by omega
    have h2 : ¬ i = t.array_length := by omega
    simp [Table.set, Table.hset, h1, h2]
  · simp [Table.get, h]
  · have h1 : ¬ i < t.array_length := by omega
    simp [Table.get, h1]

/-- Witness for C8 on small concrete tables, one instance per branch:
dense overwrite, dense extension, sparse insertion, `push`, dense
`get`, and sparse `get`. -/
theorem c8_table_push_set_get_witness :
    ((⟨[10], 1, []⟩ : Table ℕ).set 0 7).array = [7] ∧
    ((⟨[10], 1, []⟩ : Table ℕ).set 1 7).array = [10, 7] ∧
    ((⟨[10], 1, []⟩ : Table ℕ).set 5 7).hash = [("5", 7)] ∧
    ((⟨[10], 1, []⟩ : Table ℕ).push 7).array = [10, 7] ∧
    (⟨[10], 1, []⟩ : Table ℕ).get 0 = some 10 ∧
    (⟨[10], 1, [("5", 7)]⟩ : Table ℕ).get 5 = some 7 := by
  refine ⟨?_, ?_, ?_, ?_, ?_, ?_⟩
  · have h := ((c8_table_push_set_get (⟨[10], 1, []⟩ : Table ℕ) 0 7).2.1
      (by decide)).1
    simpa using h
  · have h := ((c8_table_push_set_get (⟨[10], 1, []⟩ : Table ℕ) 1 7).2.2.1
      rfl).1
    simpa using h
  · have h := ((c8_table_push_set_get (⟨[10], 1, []⟩ : Table ℕ) 5 7).2.2.2.1
      (by decide)).1
    simpa using h
  · have h := (c8_table_push_set_get (⟨[10], 1, []⟩ : Table ℕ) 0 7).1.1
    simpa using h
  · have h := (c8_table_push_set_get (⟨[10], 1, []⟩ : Table ℕ) 0 7).2.2.2.2.1
      (by decide)
    simpa using h
  · have h := (c8_table_push_set_get (⟨[10], 1, [("5", 7)]⟩ : Table ℕ) 5 7).2.2.2.2.2
      (by decide)
    simpa using h

/-- `f64` `<` mirrored is `>`: true for all values, NaN included. -/
theorem flLt_eq_flGt_swap (x y : Fl) : flLt x y = flGt y x := by
  cases x <;> cases y <;> rfl

/-- Away from NaN, `f64` `<=` is the negation of `>`. -/
theorem flLe_eq_not_flGt (x y : Fl) (hx : x ≠ .nan) (hy : y ≠ .nan) :
    flLe x y = !(flGt x y) := by
  cases x <;> cases y <;>
    first
      | rfl
      | (exact absurd rfl hx)
      | (exact absurd rfl hy)
      | (show decide _ = !decide _
         rw [← decide_not]
         exact decide_eq_decide.mpr not_lt.symm)

/-- C9 (amended).  For numeric operands the comparison overrides
satisfy: `a < b` iff `b > a` — always, NaN included; and `a <= b` iff
`!(a > b)` — provided neither payload is NaN (the counterexample shows
it fails at NaN: all NaN comparisons are false). -/
theorem c9_numeric_comparisons (a b : Object)
    (ha : isNumeric a) (hb : isNumeric b) :
    objLt a b = objGt b a ∧
    (a.data.as_float ≠ .nan → b.data.as_float ≠ .nan →
      (objLe a b = .ok true ↔ objGt a b = .ok false)) := by
  obtain ⟨ta, da⟩ := a
  obtain ⟨tb, db⟩ := b
  simp only [isNumeric] at ha hb
  rcases ha with ha | ha <;> rcases hb with hb | hb <;> subst ha <;> subst hb <;>
    refine ⟨?_, fun hna hnb => ?_⟩ <;>
    first
      | (simp only [objLt, objGt]
         rw [flLt_eq_flGt_swap])
      | (simp only [objLe, objGt]
         rw [flLe_eq_not_flGt _ _ hna hnb]
         simp)

/-- Witness for C9 at `a = Integer 1`, `b = Integer 2`. -/
theorem c9_numeric_comparisons_witness :
    objLt (intObj 1) (intObj 2) = objGt (intObj 2) (intObj 1) ∧
    (objLe (intObj 1) (intObj 2) = .ok true ↔
      objGt (intObj 1) (intObj 2) = .ok false) :=
  ⟨(c9_numeric_comparisons (intObj 1) (intObj 2) (Or.inl rfl) (Or.inl rfl)).1,
   (c9_numeric_comparisons (intObj 1) (intObj 2) (Or.inl rfl) (Or.inl rfl)).2
     (by decide) (by decide)⟩

end Coyote
